import Mathlib

/-!
Formal model of the SmartBilliardTracker 9-ball referee core, translated from
`backend/game_manager.py` and `detect_collision.py`.

Conventions of the embedding:
* Python dicts keyed by ball number 1..9 become total functions `Nat → BallInfo`
  that are only ever read and written on `ballRange = [1, ..., 9]`, mirroring the
  `for ball_num in range(1, 10)` loops.
* Python `set` becomes `Finset Int`; `list` becomes `List`; `None`-able ints
  become `Option Int`.
* Wall-clock timestamps, file logging, printing and the asyncio lock are I/O
  concerns with no effect on the game state and are not modelled.
* Events are modelled as values capturing the dict fields the rules read
  (`valid`, `foul_reason`, `game_end`, ...); free-text `message` fields are not
  modelled.
-/

namespace Billiards

/-- Ball tracking states (`BallState` enum). -/
inductive BallState where
  | onTable
  | missing
  | potted
deriving DecidableEq, Repr

/-- Per-ball record kept in `BallTracker.ball_states`
(`{state, missing_frames, last_seen_frame}`; `last_position` is never read by
the rules and is not modelled). -/
structure BallInfo where
  state : BallState
  missing_frames : Nat
  last_seen_frame : Nat
deriving DecidableEq, Repr

/-- `BallTracker.MISSING_THRESHOLD = 10` (frames before confirming potted). -/
def MISSING_THRESHOLD : Nat := 10

/-- The ball numbers `range(1, 10)` = `[1, 2, ..., 9]`. -/
def ballRange : List Nat := List.range' 1 9

/-- Tracker for all nine numbered balls (`BallTracker`). -/
structure BallTracker where
  ballStates : Nat → BallInfo
  current_frame : Nat

/-- Initial per-ball record from `BallTracker.__init__` / `reset`. -/
def initBallInfo : BallInfo :=
  { state := BallState.onTable, missing_frames := 0, last_seen_frame := 0 }

/-- `BallTracker.__init__`: every ball starts on the table. -/
def BallTracker.init : BallTracker :=
  { ballStates := fun _ => initBallInfo, current_frame := 0 }

/-- Which of the three output lists of `BallTracker.update` a ball lands in. -/
inductive UpdateTag where
  | unchanged
  | newlyMissing
  | newlyPotted
  | reappeared
deriving DecidableEq, Repr

/-- One iteration of the `for ball_num in range(1, 10)` loop body of
`BallTracker.update`, for a single ball: given whether the ball is in
`detected_set`, produce its new record and which output list it joins. -/
def updateOne (frame_idx : Nat) (detected : Bool) (info : BallInfo) :
    BallInfo × UpdateTag :=
  if detected then
    -- ball is visible: last_seen_frame updated first
    let info := { info with last_seen_frame := frame_idx }
    match info.state with
    | BallState.missing | BallState.potted =>
        ({ info with state := BallState.onTable, missing_frames := 0 },
         UpdateTag.reappeared)
    | BallState.onTable =>
        ({ info with missing_frames := 0 }, UpdateTag.unchanged)
  else
    match info.state with
    | BallState.onTable =>
        if info.last_seen_frame > 0 then
          ({ info with state := BallState.missing, missing_frames := 1 },
           UpdateTag.newlyMissing)
        else
          -- ball never seen: left untouched
          (info, UpdateTag.unchanged)
    | BallState.missing =>
        let mf := info.missing_frames + 1
        if mf ≥ MISSING_THRESHOLD then
          ({ info with state := BallState.potted, missing_frames := mf },
           UpdateTag.newlyPotted)
        else
          ({ info with missing_frames := mf }, UpdateTag.unchanged)
    | BallState.potted =>
        -- if already POTTED, stays POTTED
        (info, UpdateTag.unchanged)

/-- Return value of `BallTracker.update`. -/
structure UpdateResult where
  newly_missing : List Nat
  newly_potted : List Nat
  reappeared : List Nat
deriving DecidableEq, Repr

/-- `BallTracker.update(frame_idx, detected_balls)`: updates every ball 1..9 and
collects the `newly_missing` / `newly_potted` / `reappeared` lists in ball
order, as the Python loop does. -/
def BallTracker.update (frame_idx : Nat) (detected_balls : List Nat)
    (t : BallTracker) : UpdateResult × BallTracker :=
  let tag : Nat → UpdateTag := fun n =>
    (updateOne frame_idx (detected_balls.contains n) (t.ballStates n)).2
  ({ newly_missing := ballRange.filter fun n => tag n = UpdateTag.newlyMissing,
     newly_potted := ballRange.filter fun n => tag n = UpdateTag.newlyPotted,
     reappeared := ballRange.filter fun n => tag n = UpdateTag.reappeared },
   { ballStates := fun n =>
       if n ∈ ballRange then
         (updateOne frame_idx (detected_balls.contains n) (t.ballStates n)).1
       else t.ballStates n,
     current_frame := frame_idx })

/-- `BallTracker.is_on_table`: only the ON_TABLE state counts. -/
def BallTracker.is_on_table (t : BallTracker) (ball_num : Nat) : Bool :=
  (t.ballStates ball_num).state = BallState.onTable

/-- Run a sequence of `(frame_idx, detected_balls)` updates, keeping only the
final tracker. -/
def runUpdates (frames : List (Nat × List Nat)) (t : BallTracker) : BallTracker :=
  frames.foldl (fun t p => (BallTracker.update p.1 p.2 t).2) t

/-- Run a sequence of updates, collecting every per-frame `UpdateResult`. -/
def runCollect (frames : List (Nat × List Nat)) (t : BallTracker) :
    List UpdateResult × BallTracker :=
  match frames with
  | [] => ([], t)
  | p :: rest =>
      let r := BallTracker.update p.1 p.2 t
      let rs := runCollect rest r.2
      (r.1 :: rs.1, rs.2)

/-!  Ball-name parsing (`int(ball_name.replace("bi", ""))`).  -/

/-- Python `str.replace("bi", "")`: delete every non-overlapping occurrence of
the substring `"bi"`, scanning left to right. -/
def replaceBi : List Char → List Char
  | 'b' :: 'i' :: rest => replaceBi rest
  | c :: rest => c :: replaceBi rest
  | [] => []

/-- Numeric value of a decimal digit character, or `none`. -/
def digitVal (c : Char) : Option Nat :=
  if '0' ≤ c ∧ c ≤ '9' then some (c.toNat - '0'.toNat) else none

/-- Accumulate a decimal number from a digit string; fails on a non-digit. -/
def parseDigitsAux : List Char → Nat → Option Nat
  | [], acc => some acc
  | c :: rest, acc =>
      match digitVal c with
      | some d => parseDigitsAux rest (acc * 10 + d)
      | none => none

/-- Parse a nonempty all-digit string as a natural number. -/
def parseDigits : List Char → Option Nat
  | [] => none
  | cs => parseDigitsAux cs 0

/-- Python `int(s)` on a sign-plus-digits string.  (Python additionally strips
surrounding whitespace and allows underscores between digits; ball names never
contain those, so they are not modelled.) -/
def parseIntChars (cs : List Char) : Option Int :=
  match cs with
  | '-' :: rest => (parseDigits rest).map fun n => -(n : Int)
  | '+' :: rest => (parseDigits rest).map fun n => (n : Int)
  | _ => (parseDigits cs).map fun n => (n : Int)

/-- `int(ball_name.replace("bi", ""))`, returning `none` where Python raises
`ValueError` (the `except` branch of `process_collision` /
`process_potted_ball`). -/
def parseBallNum (name : String) : Option Int :=
  parseIntChars (replaceBi name.data)

/-!  Referee state machine (`GameManager`).  -/

/-- Game states (`GameState` enum). -/
inductive GameState where
  | idle
  | playing
  | paused
  | ended
deriving DecidableEq, Repr

/-- `Player`: name, id-implicit-by-position, potted balls, foul count, turn
flag. -/
structure Player where
  name : String
  potted_balls : List Int
  foul_count : Nat
  is_current : Bool
deriving DecidableEq, Repr

/-- Result of `process_collision`, keeping the dict fields the rules read. -/
inductive CollisionEvent where
  | invalidCollision (ball : String)
  | firstHit (ball : Int) (valid : Bool) (lowest_ball : Int)
      (in_grace_period : Bool) (foul_reason : Option String)
  | subsequentHit (ball : Int)
deriving DecidableEq, Repr

/-- Result of `process_potted_ball`, keeping the dict fields the rules read.
`potted` carries `valid`, `game_end`, `early_nine`, `foul_reason` and
`winner`. -/
inductive PotEvent where
  | invalidPot (ball : String)
  | alreadyPotted (ball : Int)
  | prePotted (ball : Int)
  | potted (ball : Int) (valid : Bool) (game_end : Bool) (early_nine : Bool)
      (foul_reason : Option String) (winner : Option String)
deriving DecidableEq, Repr

/-- Result of `process_foul`. -/
structure FoulEvent where
  player : String
  reason : String
  potted_balls : List Int
deriving DecidableEq, Repr

/-- One entry of the `self.events` log (`_add_event`), tagged by event type. -/
inductive LoggedEvent where
  | gameStart (player1 player2 : String) (starting_player : Nat)
  | collision (e : CollisionEvent)
  | potted (e : PotEvent)
  | ballReappeared (ball : Int)
  | foul (e : FoulEvent)
  | turnChange (player : String)
  | gameEnd (winner : String)
deriving DecidableEq, Repr

/-- `TurnSnapshot` as built by `create_turn_snapshot` (the wall-clock
`timestamp` is not modelled). -/
structure Snapshot where
  turn_number : Nat
  balls_on_table : Finset Int
  lowest_ball : Int
  current_player_idx : Nat
  last_hit_ball : Option Int
  last_potted_balls : List Int
  first_contact : Bool
  player1_potted : List Int
  player2_potted : List Int
  player1_fouls : Nat
  player2_fouls : Nat
deriving DecidableEq

/-- `GameManager.max_snapshots = 5`. -/
def max_snapshots : Nat := 5

/-- `set(range(1, 10))`. -/
def initialBalls : Finset Int :=
  {1, 2, 3, 4, 5, 6, 7, 8, 9}

/-- The referee's match state (`GameManager`).  Python keeps `self.players` as
a list that is empty in IDLE and `[player1, player2]` once a game starts; the
two slots are modelled as the fields `player0` / `player1` (placeholder players
before `start_game`).  Wall-clock fields (`match_id`, timestamps,
`movement_timeout`) and the movement-detection buffers are I/O/time concerns
the claims do not touch and are not modelled. -/
structure GameManager where
  state : GameState
  player0 : Player
  player1 : Player
  current_player_idx : Nat
  balls_on_table : Finset Int
  lowest_ball : Int
  last_hit_ball : Option Int
  last_potted_balls : List Int
  events : List LoggedEvent
  balls_moving : Bool
  first_contact : Bool
  ball_tracker : BallTracker
  state_snapshots : List Snapshot
  current_snapshot : Option Snapshot
  cueball_missing_frames : Nat
  cueball_scratched : Bool

/-- The player at `self.players[self.current_player_idx]` (games have exactly
two players; Python would raise on any other index). -/
def GameManager.currentPlayer (g : GameManager) : Player :=
  if g.current_player_idx = 0 then g.player0 else g.player1

/-- Mutate `self.players[self.current_player_idx]`. -/
def GameManager.modifyCurrentPlayer (g : GameManager) (f : Player → Player) :
    GameManager :=
  if g.current_player_idx = 0 then { g with player0 := f g.player0 }
  else { g with player1 := f g.player1 }

/-- `_add_event`: append to the event history. -/
def GameManager.add_event (g : GameManager) (e : LoggedEvent) : GameManager :=
  { g with events := g.events ++ [e] }

/-- `GameManager.__init__` (the placeholder players stand for Python's empty
player list). -/
def GameManager.init : GameManager :=
  { state := GameState.idle
    player0 := { name := "", potted_balls := [], foul_count := 0, is_current := false }
    player1 := { name := "", potted_balls := [], foul_count := 0, is_current := false }
    current_player_idx := 0
    balls_on_table := initialBalls
    lowest_ball := 1
    last_hit_ball := none
    last_potted_balls := []
    events := []
    balls_moving := false
    first_contact := false
    ball_tracker := BallTracker.init
    state_snapshots := []
    current_snapshot := none
    cueball_missing_frames := 0
    cueball_scratched := false }

/-- `start_game(player1_name, player2_name, starting_player)`.  Note the Python
method does not clear `state_snapshots`. -/
def GameManager.start_game (player1_name player2_name : String)
    (starting_player : Nat) (g : GameManager) : GameManager :=
  let g :=
    { g with
      state := GameState.playing
      player0 := { name := player1_name, potted_balls := [], foul_count := 0,
                   is_current := starting_player = 0 }
      player1 := { name := player2_name, potted_balls := [], foul_count := 0,
                   is_current := starting_player = 1 }
      current_player_idx := starting_player
      balls_on_table := initialBalls
      lowest_ball := 1
      last_hit_ball := none
      last_potted_balls := []
      events := []
      first_contact := false
      ball_tracker := BallTracker.init
      cueball_missing_frames := 0
      cueball_scratched := false }
  g.add_event (LoggedEvent.gameStart player1_name player2_name starting_player)

/-- `is_in_break_grace_period`: break shot while at most one snapshot exists. -/
def GameManager.is_in_break_grace_period (g : GameManager) : Bool :=
  g.state_snapshots.length ≤ 1

/-- `create_turn_snapshot`: push a snapshot, evicting the oldest beyond
`max_snapshots`, and remember it as `current_snapshot`. -/
def GameManager.create_turn_snapshot (g : GameManager) : GameManager :=
  let snap : Snapshot :=
    { turn_number := g.state_snapshots.length + 1
      balls_on_table := g.balls_on_table
      lowest_ball := g.lowest_ball
      current_player_idx := g.current_player_idx
      last_hit_ball := g.last_hit_ball
      last_potted_balls := g.last_potted_balls
      first_contact := g.first_contact
      player1_potted := g.player0.potted_balls
      player2_potted := g.player1.potted_balls
      player1_fouls := g.player0.foul_count
      player2_fouls := g.player1.foul_count }
  let snaps := g.state_snapshots ++ [snap]
  let snaps := if snaps.length > max_snapshots then snaps.tail else snaps
  { g with state_snapshots := snaps, current_snapshot := some snap }

/-- `revert_to_snapshot(snapshot)`: restore from the given snapshot, or from
`current_snapshot` when `none`; no-op when no snapshot is available. -/
def GameManager.revert_to_snapshot (snapshot : Option Snapshot)
    (g : GameManager) : GameManager :=
  match (match snapshot with
         | none => g.current_snapshot
         | some s => some s) with
  | none => g
  | some snap =>
      { g with
        balls_on_table := snap.balls_on_table
        lowest_ball := snap.lowest_ball
        current_player_idx := snap.current_player_idx
        last_hit_ball := snap.last_hit_ball
        last_potted_balls := snap.last_potted_balls
        first_contact := snap.first_contact
        player0 :=
          { g.player0 with
            potted_balls := snap.player1_potted
            foul_count := snap.player1_fouls }
        player1 :=
          { g.player1 with
            potted_balls := snap.player2_potted
            foul_count := snap.player2_fouls } }

/-- `_reset_turn_state`: clear the per-turn fields, then snapshot. -/
def GameManager.reset_turn_state (g : GameManager) : GameManager :=
  ({ g with
     last_hit_ball := none
     last_potted_balls := []
     balls_moving := false
     first_contact := false }).create_turn_snapshot

/-- `_switch_turn`: toggle the active player, reset per-turn state (which
pushes a snapshot), and log a turn-change event. -/
def GameManager.switch_turn (g : GameManager) : LoggedEvent × GameManager :=
  let g := g.modifyCurrentPlayer fun p => { p with is_current := false }
  let g := { g with current_player_idx := 1 - g.current_player_idx }
  let g := g.modifyCurrentPlayer fun p => { p with is_current := true }
  let g := g.reset_turn_state
  let ev := LoggedEvent.turnChange g.currentPlayer.name
  (ev, g.add_event ev)

/-- `_update_lowest_ball`: minimum ball whose tracker state is ON_TABLE; keep
the previous value when no ball qualifies. -/
def GameManager.update_lowest_ball (g : GameManager) : GameManager :=
  match (ballRange.filter fun n => g.ball_tracker.is_on_table n).min? with
  | some m => { g with lowest_ball := (m : Int) }
  | none => g

/-- `_end_game(winner_idx)`: mark the game ended and log the result (the
file-persistence side effect of `_save_match_history` is not modelled). -/
def GameManager.end_game (winner_idx : Nat) (g : GameManager) : GameManager :=
  let g := { g with state := GameState.ended }
  let winner := if winner_idx = 0 then g.player0 else g.player1
  g.add_event (LoggedEvent.gameEnd winner.name)

/-- `process_collision(ball_name)`. -/
def GameManager.process_collision (ball_name : String) (g : GameManager) :
    CollisionEvent × GameManager :=
  match parseBallNum ball_name with
  | none => (CollisionEvent.invalidCollision ball_name, g)
  | some ball_num =>
      match g.last_hit_ball with
      | none =>
          let g := { g with last_hit_ball := some ball_num, first_contact := true }
          let in_grace_period := g.is_in_break_grace_period
          let is_valid_hit : Bool :=
            if in_grace_period then true else ball_num = g.lowest_ball
          let reason : Option String :=
            if is_valid_hit then none
            else some ("Must hit bi" ++ toString g.lowest_ball ++ " first")
          let ev := CollisionEvent.firstHit ball_num is_valid_hit g.lowest_ball
            in_grace_period reason
          (ev, g.add_event (LoggedEvent.collision ev))
      | some _ => (CollisionEvent.subsequentHit ball_num, g)

/-- `process_foul(reason)`: increment the current player's foul count, log the
foul, and switch turn.  Potted balls deliberately stay potted (no snapshot
reversion). -/
def GameManager.process_foul (reason : String) (g : GameManager) :
    FoulEvent × GameManager :=
  let potted_balls := g.last_potted_balls
  let g := g.modifyCurrentPlayer fun p => { p with foul_count := p.foul_count + 1 }
  let ev : FoulEvent :=
    { player := g.currentPlayer.name, reason := reason,
      potted_balls := potted_balls }
  let g := g.add_event (LoggedEvent.foul ev)
  let g := (g.switch_turn).2
  (ev, g)

/-- `process_potted_ball(ball_name)`. -/
def GameManager.process_potted_ball (ball_name : String) (g : GameManager) :
    PotEvent × GameManager :=
  match parseBallNum ball_name with
  | none => (PotEvent.invalidPot ball_name, g)
  | some ball_num =>
      if ball_num ∉ g.balls_on_table then (PotEvent.alreadyPotted ball_num, g)
      else if g.first_contact = false then
        -- pre-contact disappearance: no score, no foul
        let g := { g with balls_on_table := g.balls_on_table.erase ball_num }
        let g := g.update_lowest_ball
        let ev := PotEvent.prePotted ball_num
        let g := { g with last_potted_balls := g.last_potted_balls ++ [ball_num] }
        (ev, g.add_event (LoggedEvent.potted ev))
      else
        -- valid iff the lowest ball was hit first on initial contact
        let is_valid : Bool := g.last_hit_ball = some g.lowest_ball
        let g := { g with last_potted_balls := g.last_potted_balls ++ [ball_num] }
        let g := { g with balls_on_table := g.balls_on_table.erase ball_num }
        let g := g.modifyCurrentPlayer fun p =>
          { p with potted_balls := p.potted_balls ++ [ball_num] }
        if is_valid then
          if ball_num = 9 then
            let is_nine_win : Bool :=
              g.balls_on_table = ∅ ∨ g.last_hit_ball = some (9 : Int)
            if is_nine_win then
              let g := g.end_game g.current_player_idx
              let ev := PotEvent.potted ball_num true true false none
                (some g.currentPlayer.name)
              (ev, g.add_event (LoggedEvent.potted ev))
            else
              -- 9-ball potted early by combination: return it to the table
              let g := { g with balls_on_table := insert 9 g.balls_on_table }
              let g := g.modifyCurrentPlayer fun p =>
                { p with potted_balls := p.potted_balls.erase 9 }
              let ev := PotEvent.potted ball_num false false true
                (some "bi9 potted by combination") none
              let g := g.update_lowest_ball
              (ev, g.add_event (LoggedEvent.potted ev))
          else
            let g := g.update_lowest_ball
            let ev := PotEvent.potted ball_num true false false none none
            (ev, g.add_event (LoggedEvent.potted ev))
        else
          let ev := PotEvent.potted ball_num false false false
            (some ("Did not hit bi" ++ toString g.lowest_ball ++ " first")) none
          (ev, g.add_event (LoggedEvent.potted ev))

/-!  Collision merging (`detect_collision.merge_sequential_collisions`).
A raw collision record is read by the merge pass only through
`c["frame_idx"]` and `c["ball"]["name"]`, so a record is modelled by those two
fields. -/

/-- A collision record as consumed by `merge_sequential_collisions`. -/
structure Collision where
  frame_idx : Nat
  ball : String
deriving DecidableEq, Repr

/-- The dedup key `(c["frame_idx"], c["ball"]["name"])`. -/
def Collision.key (c : Collision) : Nat × String :=
  (c.frame_idx, c.ball)

/-- First dedup pass: keep the first record for every `(frame, ball)` key,
scanning left to right with a `seen` set. -/
def dedupKeyed : List Collision → List (Nat × String) → List Collision
  | [], _ => []
  | c :: rest, seen =>
      if c.key ∈ seen then dedupKeyed rest seen
      else c :: dedupKeyed rest (c.key :: seen)

/-- The sort key ordering `(frame_idx, ball name)` (lexicographic, as Python's
tuple comparison). -/
def collLE (a b : Collision) : Prop :=
  a.frame_idx < b.frame_idx ∨ (a.frame_idx = b.frame_idx ∧ a.ball ≤ b.ball)

instance : DecidableRel collLE := fun a b => by
  unfold collLE; infer_instance

instance : IsTotal Collision collLE := by
  constructor
  intro a b
  rcases Nat.lt_trichotomy a.frame_idx b.frame_idx with h | h | h
  · exact Or.inl (Or.inl h)
  · rcases le_total a.ball b.ball with hs | hs
    · exact Or.inl (Or.inr ⟨h, hs⟩)
    · exact Or.inr (Or.inr ⟨h.symm, hs⟩)
  · exact Or.inr (Or.inl h)

instance : IsTrans Collision collLE := by
  constructor
  intro a b c hab hbc
  rcases hab with h1 | ⟨h1, h1s⟩
  · rcases hbc with h2 | ⟨h2, _⟩
    · exact Or.inl (h1.trans h2)
    · exact Or.inl (h2 ▸ h1)
  · rcases hbc with h2 | ⟨h2, h2s⟩
    · exact Or.inl (h1 ▸ h2)
    · exact Or.inr ⟨h1.trans h2, h1s.trans h2s⟩

/-- The grouping loop of `merge_sequential_collisions`: walk the sorted list,
extending the current group while the next record has the same ball and a
frame gap of at most `max_gap` from the *previous* record, and emit each
group's first (earliest) record. -/
def mergeLoop (max_gap : Int) (head prev : Collision) :
    List Collision → List Collision
  | [] => [head]
  | c :: rest =>
      if c.ball = prev.ball ∧ (c.frame_idx : Int) - (prev.frame_idx : Int) ≤ max_gap
      then mergeLoop max_gap head c rest
      else head :: mergeLoop max_gap c c rest

/-- `merge_sequential_collisions(collisions, max_gap)`: drop exact duplicate
`(frame, ball)` keys, sort by `(frame_idx, ball name)`, then merge runs of
consecutive same-ball records with successive gaps ≤ `max_gap`, keeping each
run's earliest record.  (Python's `sorted` is stable; after the dedup pass all
keys are distinct, so any sort by this ordering yields the same list and
stability is irrelevant.) -/
def merge_sequential_collisions (max_gap : Int) (collisions : List Collision) :
    List Collision :=
  match List.insertionSort collLE (dedupKeyed collisions []) with
  | [] => []
  | c :: rest => mergeLoop max_gap c c rest

/-- The tracker invariant of claim C10: every ball recorded as ON_TABLE has a
zero missing-frame counter. -/
def TrackerInv (t : BallTracker) : Prop :=
  ∀ b ∈ ballRange, (t.ballStates b).state = BallState.onTable →
    (t.ballStates b).missing_frames = 0

instance (t : BallTracker) : Decidable (TrackerInv t) := by
  unfold TrackerInv; exact List.decidableBAll _ _

/-!  C1: behaviour of `process_foul`.  A concrete game: start, take the turn
snapshot, legally pot ball 1, then foul. -/

/-- Fresh game with the first turn snapshot taken (balls 1–9 on the table,
no pots). -/
def c1_g0 : GameManager :=
  (GameManager.init.start_game "A" "B" 0).create_turn_snapshot

/-- After a valid first hit on ball 1. -/
def c1_g1 : GameManager := (c1_g0.process_collision "bi1").2

/-- After potting ball 1 (removed from table, credited to player A). -/
def c1_g2 : GameManager := (c1_g1.process_potted_ball "bi1").2

/-- After the foul. -/
def c1_g3 : GameManager := (c1_g2.process_foul "test foul").2

/-!  C2: potting the 9-ball.  A concrete post-break game: start, two turn
changes (ending the break-grace window and returning to player A), first hit
on ball 9 while the lowest ball is 1, then pot ball 9. -/

/-- Fresh game. -/
def c2_g0 : GameManager := GameManager.init.start_game "A" "B" 0

/-- After two turn changes: two snapshots exist (grace over), player A again. -/
def c2_g1 : GameManager := ((c2_g0.switch_turn).2.switch_turn).2

/-- After hitting ball 9 first (lowest ball is 1, so the hit is invalid). -/
def c2_g2 : GameManager := (c2_g1.process_collision "bi9").2

/-- The pot of ball 9. -/
def c2_pot : PotEvent × GameManager := c2_g2.process_potted_ball "bi9"

/-!  Tracker lemmas.  -/

theorem ballRange_nodup : ballRange.Nodup := by decide

theorem update_ballStates (f : Nat) (ds : List Nat) (t : BallTracker) (b : Nat)
    (hb : b ∈ ballRange) :
    ((BallTracker.update f ds t).2).ballStates b =
      (updateOne f (ds.contains b) (t.ballStates b)).1 := by
  simp [BallTracker.update, hb]

theorem mem_update_newly_missing (f : Nat) (ds : List Nat) (t : BallTracker)
    (b : Nat) :
    b ∈ (BallTracker.update f ds t).1.newly_missing ↔
      b ∈ ballRange ∧
        (updateOne f (ds.contains b) (t.ballStates b)).2 =
          UpdateTag.newlyMissing := by
  simp [BallTracker.update, List.mem_filter]

theorem mem_update_newly_potted (f : Nat) (ds : List Nat) (t : BallTracker)
    (b : Nat) :
    b ∈ (BallTracker.update f ds t).1.newly_potted ↔
      b ∈ ballRange ∧
        (updateOne f (ds.contains b) (t.ballStates b)).2 =
          UpdateTag.newlyPotted := by
  simp [BallTracker.update, List.mem_filter]

theorem mem_update_reappeared (f : Nat) (ds : List Nat) (t : BallTracker)
    (b : Nat) :
    b ∈ (BallTracker.update f ds t).1.reappeared ↔
      b ∈ ballRange ∧
        (updateOne f (ds.contains b) (t.ballStates b)).2 =
          UpdateTag.reappeared := by
  simp [BallTracker.update, List.mem_filter]

theorem count_update_reappeared (f : Nat) (ds : List Nat) (t : BallTracker)
    (b : Nat) (hb : b ∈ ballRange)
    (htag : (updateOne f (ds.contains b) (t.ballStates b)).2 =
      UpdateTag.reappeared) :
    List.count b (BallTracker.update f ds t).1.reappeared = 1 := by
  apply List.count_eq_one_of_mem
  · exact List.Nodup.filter _ ballRange_nodup
  · exact (mem_update_reappeared f ds t b).mpr ⟨hb, htag⟩

theorem count_update_newly_potted (f : Nat) (ds : List Nat) (t : BallTracker)
    (b : Nat) (hb : b ∈ ballRange)
    (htag : (updateOne f (ds.contains b) (t.ballStates b)).2 =
      UpdateTag.newlyPotted) :
    List.count b (BallTracker.update f ds t).1.newly_potted = 1 := by
  apply List.count_eq_one_of_mem
  · exact List.Nodup.filter _ ballRange_nodup
  · exact (mem_update_newly_potted f ds t b).mpr ⟨hb, htag⟩

theorem updateOne_absent_onTable_unseen (f : Nat) (mf : Nat) :
    updateOne f false ⟨BallState.onTable, mf, 0⟩ =
      (⟨BallState.onTable, mf, 0⟩, UpdateTag.unchanged) := by
  simp [updateOne]

theorem updateOne_absent_onTable_seen (f : Nat) (mf ls : Nat) (hls : 0 < ls) :
    updateOne f false ⟨BallState.onTable, mf, ls⟩ =
      (⟨BallState.missing, 1, ls⟩, UpdateTag.newlyMissing) := by
  simp [updateOne, hls]

theorem updateOne_absent_missing_below (f : Nat) (k ls : Nat)
    (hk : k + 1 < MISSING_THRESHOLD) :
    updateOne f false ⟨BallState.missing, k, ls⟩ =
      (⟨BallState.missing, k + 1, ls⟩, UpdateTag.unchanged) := by
  simp [updateOne, Nat.not_le.mpr hk]

theorem updateOne_absent_missing_at (f : Nat) (k ls : Nat)
    (hk : MISSING_THRESHOLD ≤ k + 1) :
    updateOne f false ⟨BallState.missing, k, ls⟩ =
      (⟨BallState.potted, k + 1, ls⟩, UpdateTag.newlyPotted) := by
  simp [updateOne, hk]

theorem updateOne_detected_gone (f : Nat) (st : BallState) (k ls : Nat)
    (h : st = BallState.missing ∨ st = BallState.potted) :
    updateOne f true ⟨st, k, ls⟩ =
      (⟨BallState.onTable, 0, f⟩, UpdateTag.reappeared) := by
  rcases h with h | h <;> subst h <;> simp [updateOne]

theorem updateOne_detected_onTable (f : Nat) (k ls : Nat) :
    updateOne f true ⟨BallState.onTable, k, ls⟩ =
      (⟨BallState.onTable, 0, f⟩, UpdateTag.unchanged) := by
  simp [updateOne]

theorem updateOne_absent_potted (f : Nat) (k ls : Nat) :
    updateOne f false ⟨BallState.potted, k, ls⟩ =
      (⟨BallState.potted, k, ls⟩, UpdateTag.unchanged) := by
  simp [updateOne]

/-- A run of updates in each of which ball `b` stays undetected, starting from
a MISSING record strictly below the confirmation threshold, just counts up the
missing frames and never confirms a pot. -/
theorem runCollect_absent_missing (b : Nat) (hb : b ∈ ballRange) (ls : Nat) :
    ∀ (frames : List (Nat × List Nat)) (t : BallTracker) (k : Nat),
      t.ballStates b = ⟨BallState.missing, k, ls⟩ →
      (∀ p ∈ frames, (p.2).contains b = false) →
      k + frames.length < MISSING_THRESHOLD →
      (runCollect frames t).2.ballStates b =
        ⟨BallState.missing, k + frames.length, ls⟩ ∧
      ∀ r ∈ (runCollect frames t).1, b ∉ r.newly_potted := by
  intro frames
  induction frames with
  | nil =>
      intro t k hinfo _ _
      simpa [runCollect] using hinfo
  | cons p rest ih =>
      intro t k hinfo habs hlt
      have hk1 : k + 1 < MISSING_THRESHOLD := by
        simp [List.length_cons] at hlt; omega
      have hcb : (p.2).contains b = false := habs p (by simp)
      have hone : updateOne p.1 ((p.2).contains b) (t.ballStates b) =
          (⟨BallState.missing, k + 1, ls⟩, UpdateTag.unchanged) := by
        rw [hcb, hinfo, updateOne_absent_missing_below p.1 k ls hk1]
      have hstep : (BallTracker.update p.1 p.2 t).2.ballStates b =
          ⟨BallState.missing, k + 1, ls⟩ := by
        rw [update_ballStates _ _ _ _ hb, hone]
      have hrest := ih (BallTracker.update p.1 p.2 t).2 (k + 1) hstep
        (fun q hq => habs q (by simp [hq])) (by simp at hlt ⊢; omega)
      refine ⟨?_, ?_⟩
      · rw [show (runCollect (p :: rest) t).2 =
            (runCollect rest (BallTracker.update p.1 p.2 t).2).2 from rfl]
        rw [hrest.1]
        congr 1
        simp [List.length_cons]
        omega
      · intro r hr
        rw [show (runCollect (p :: rest) t).1 =
            (BallTracker.update p.1 p.2 t).1 ::
              (runCollect rest (BallTracker.update p.1 p.2 t).2).1 from rfl] at hr
        rcases List.mem_cons.mp hr with hr | hr
        · subst hr
          intro hmem
          have := (mem_update_newly_potted p.1 p.2 t b).mp hmem
          rw [hone] at this
          exact absurd this.2 (by simp)
        · exact hrest.2 r hr

/-- A run of updates in each of which ball `b` stays undetected, starting from
an ON_TABLE record that was never seen (`last_seen_frame = 0`), leaves the
record untouched and never reports `b` missing or potted. -/
theorem runCollect_absent_unseen (b : Nat) (hb : b ∈ ballRange) :
    ∀ (frames : List (Nat × List Nat)) (t : BallTracker) (mf : Nat),
      t.ballStates b = ⟨BallState.onTable, mf, 0⟩ →
      (∀ p ∈ frames, (p.2).contains b = false) →
      (runCollect frames t).2.ballStates b = ⟨BallState.onTable, mf, 0⟩ ∧
      ∀ r ∈ (runCollect frames t).1,
        b ∉ r.newly_missing ∧ b ∉ r.newly_potted := by
  intro frames
  induction frames with
  | nil =>
      intro t mf hinfo _
      simpa [runCollect] using hinfo
  | cons p rest ih =>
      intro t mf hinfo habs
      have hcb : (p.2).contains b = false := habs p (by simp)
      have hone : updateOne p.1 ((p.2).contains b) (t.ballStates b) =
          (⟨BallState.onTable, mf, 0⟩, UpdateTag.unchanged) := by
        rw [hcb, hinfo, updateOne_absent_onTable_unseen]
      have hstep : (BallTracker.update p.1 p.2 t).2.ballStates b =
          ⟨BallState.onTable, mf, 0⟩ := by
        rw [update_ballStates _ _ _ _ hb, hone]
      have hrest := ih (BallTracker.update p.1 p.2 t).2 mf hstep
        (fun q hq => habs q (by simp [hq]))
      refine ⟨hrest.1, ?_⟩
      intro r hr
      rw [show (runCollect (p :: rest) t).1 =
          (BallTracker.update p.1 p.2 t).1 ::
            (runCollect rest (BallTracker.update p.1 p.2 t).2).1 from rfl] at hr
      rcases List.mem_cons.mp hr with hr | hr
      · subst hr
        constructor
        · intro hmem
          have := (mem_update_newly_missing p.1 p.2 t b).mp hmem
          rw [hone] at this
          exact absurd this.2 (by simp)
        · intro hmem
          have := (mem_update_newly_potted p.1 p.2 t b).mp hmem
          rw [hone] at this
          exact absurd this.2 (by simp)
      · exact hrest.2 r hr

/-- C6: a ball whose record still has `last_seen_frame = 0` (never detected)
stays ON_TABLE under every update in which it is absent, and is never reported
in `newly_missing` or `newly_potted`. -/
theorem never_seen_never_missing
    (t : BallTracker) (b : Nat) (hb : b ∈ ballRange) (mf : Nat)
    (hinfo : t.ballStates b = ⟨BallState.onTable, mf, 0⟩)
    (frames : List (Nat × List Nat))
    (habs : ∀ p ∈ frames, (p.2).contains b = false) :
    ((runCollect frames t).2.ballStates b).state = BallState.onTable ∧
    (runCollect frames t).2.ballStates b = t.ballStates b ∧
    ∀ r ∈ (runCollect frames t).1,
      b ∉ r.newly_missing ∧ b ∉ r.newly_potted := by
  have h := runCollect_absent_unseen b hb frames t mf hinfo habs
  exact ⟨by rw [h.1], by rw [h.1, hinfo], h.2⟩

/-- Witness for C6 on the initial tracker and two concrete absent frames. -/
theorem never_seen_never_missing_witness :
    ((runCollect [(1, [2, 3]), (2, [])] BallTracker.init).2.ballStates 1).state =
      BallState.onTable := by
  exact (never_seen_never_missing BallTracker.init 1 (by decide) 0 rfl
    [(1, [2, 3]), (2, [])] (by decide)).1

/-- C7: a MISSING or POTTED ball that is detected again always returns to
ON_TABLE with its missing counter reset to 0 (and `last_seen_frame` set to the
current frame), and is reported exactly once in the `reappeared` list — also
when the pot was already confirmed. -/
theorem reappearance_resets
    (t : BallTracker) (b : Nat) (hb : b ∈ ballRange)
    (f : Nat) (ds : List Nat) (hdet : ds.contains b = true)
    (hst : (t.ballStates b).state = BallState.missing ∨
           (t.ballStates b).state = BallState.potted) :
    (BallTracker.update f ds t).2.ballStates b = ⟨BallState.onTable, 0, f⟩ ∧
    List.count b (BallTracker.update f ds t).1.reappeared = 1 := by
  rcases hti : t.ballStates b with ⟨st, k, ls⟩
  rw [hti] at hst
  have hone : updateOne f (ds.contains b) (t.ballStates b) =
      (⟨BallState.onTable, 0, f⟩, UpdateTag.reappeared) := by
    rw [hti, hdet, updateOne_detected_gone f st k ls hst]
  constructor
  · rw [update_ballStates _ _ _ _ hb, hone]
  · exact count_update_reappeared f ds t b hb (by rw [hone])

/-- Witness for C7: ball 5 confirmed potted, then redetected. -/
theorem reappearance_resets_witness :
    (BallTracker.update 20 [5]
        (runUpdates ((List.range' 2 12).map fun i => (i, []))
          (BallTracker.update 1 [5] BallTracker.init).2)).2.ballStates 5 =
      ⟨BallState.onTable, 0, 20⟩ := by
  refine (reappearance_resets _ 5 (by decide) 20 [5] (by decide) ?_).1
  right
  decide

/-- C10: in every tracker state reachable from the initial one, a ball in the
ON_TABLE state has missing-frame counter 0, and this invariant is preserved by
every single update. -/
theorem on_table_zero_missing_invariant :
    TrackerInv BallTracker.init ∧
    (∀ f ds t, TrackerInv t → TrackerInv (BallTracker.update f ds t).2) ∧
    (∀ frames, TrackerInv (runUpdates frames BallTracker.init)) := by
  have hpres : ∀ f ds t, TrackerInv t → TrackerInv (BallTracker.update f ds t).2 := by
    intro f ds t hInv b hb
    rw [update_ballStates _ _ _ _ hb]
    rcases hti : t.ballStates b with ⟨st, k, ls⟩
    cases hc : ds.contains b
    · cases st
      · rcases Nat.eq_zero_or_pos ls with hls | hls
        · subst hls
          rw [updateOne_absent_onTable_unseen]
          intro _
          have := hInv b hb
          rw [hti] at this
          exact this rfl
        · rw [updateOne_absent_onTable_seen f k ls hls]
          intro h
          exact absurd h (by simp)
      · by_cases hk : MISSING_THRESHOLD ≤ k + 1
        · rw [updateOne_absent_missing_at f k ls hk]
          intro h
          exact absurd h (by simp)
        · rw [updateOne_absent_missing_below f k ls (Nat.not_le.mp hk)]
          intro h
          exact absurd h (by simp)
      · rw [updateOne_absent_potted]
        intro h
        exact absurd h (by simp)
    · cases st
      · rw [updateOne_detected_onTable]
        intro _
        rfl
      · rw [updateOne_detected_gone f _ k ls (Or.inl rfl)]
        intro _
        rfl
      · rw [updateOne_detected_gone f _ k ls (Or.inr rfl)]
        intro _
        rfl
  have hinit : TrackerInv BallTracker.init := by decide
  refine ⟨hinit, hpres, ?_⟩
  intro frames
  have : ∀ (fs : List (Nat × List Nat)) (t : BallTracker), TrackerInv t →
      TrackerInv (runUpdates fs t) := by
    intro fs
    induction fs with
    | nil => intro t h; simpa [runUpdates] using h
    | cons p rest ih =>
        intro t h
        have : runUpdates (p :: rest) t =
            runUpdates rest (BallTracker.update p.1 p.2 t).2 := rfl
        rw [this]
        exact ih _ (hpres p.1 p.2 t h)
  exact this frames BallTracker.init hinit

/-- Witness for C10: the invariant holds after one concrete update from the
initial tracker. -/
theorem on_table_zero_missing_invariant_witness :
    TrackerInv (BallTracker.update 1 [] BallTracker.init).2 :=
  on_table_zero_missing_invariant.2.1 1 [] BallTracker.init (by decide)

/-- C3: a ball seen at least once then absent is still MISSING with count 9
after 9 consecutive absent frames — with no confirmed-pot event emitted — and
becomes POTTED, appearing in `newly_potted` exactly once, on the 10th. -/
theorem pot_confirmation_threshold_exact
    (t : BallTracker) (b : Nat) (hb : b ∈ ballRange) (ls : Nat) (hls : 0 < ls)
    (hinfo : t.ballStates b = ⟨BallState.onTable, 0, ls⟩)
    (frames : List (Nat × List Nat)) (hlen : frames.length = 9)
    (habs : ∀ p ∈ frames, (p.2).contains b = false)
    (f10 : Nat) (ds10 : List Nat) (h10 : ds10.contains b = false) :
    ((runCollect frames t).2.ballStates b).state = BallState.missing ∧
    ((runCollect frames t).2.ballStates b).missing_frames = 9 ∧
    (∀ r ∈ (runCollect frames t).1, b ∉ r.newly_potted) ∧
    ((BallTracker.update f10 ds10 (runCollect frames t).2).2.ballStates b).state =
      BallState.potted ∧
    List.count b
      (BallTracker.update f10 ds10 (runCollect frames t).2).1.newly_potted = 1 := by
  match frames, hlen with
  | p :: rest, hlen =>
  have hrlen : rest.length = 8 := by simpa using hlen
  have hcb : (p.2).contains b = false := habs p (by simp)
  have hone : updateOne p.1 ((p.2).contains b) (t.ballStates b) =
      (⟨BallState.missing, 1, ls⟩, UpdateTag.newlyMissing) := by
    rw [hcb, hinfo, updateOne_absent_onTable_seen p.1 0 ls hls]
  have hstep : (BallTracker.update p.1 p.2 t).2.ballStates b =
      ⟨BallState.missing, 1, ls⟩ := by
    rw [update_ballStates _ _ _ _ hb, hone]
  have hrest := runCollect_absent_missing b hb ls rest
    (BallTracker.update p.1 p.2 t).2 1 hstep
    (fun q hq => habs q (by simp [hq])) (by rw [hrlen]; decide)
  have hfinal : (runCollect (p :: rest) t).2.ballStates b =
      ⟨BallState.missing, 9, ls⟩ := by
    rw [show (runCollect (p :: rest) t).2 =
        (runCollect rest (BallTracker.update p.1 p.2 t).2).2 from rfl,
      hrest.1, hrlen]
  have hone10 : updateOne f10 (ds10.contains b)
      ((runCollect (p :: rest) t).2.ballStates b) =
      (⟨BallState.potted, 10, ls⟩, UpdateTag.newlyPotted) := by
    rw [h10, hfinal, updateOne_absent_missing_at f10 9 ls (by decide)]
  refine ⟨by rw [hfinal], by rw [hfinal], ?_, ?_, ?_⟩
  · intro r hr
    rw [show (runCollect (p :: rest) t).1 =
        (BallTracker.update p.1 p.2 t).1 ::
          (runCollect rest (BallTracker.update p.1 p.2 t).2).1 from rfl] at hr
    rcases List.mem_cons.mp hr with hr | hr
    · subst hr
      intro hmem
      have := (mem_update_newly_potted p.1 p.2 t b).mp hmem
      rw [hone] at this
      exact absurd this.2 (by simp)
    · exact hrest.2 r hr
  · rw [update_ballStates _ _ _ _ hb, hone10]
  · exact count_update_newly_potted f10 ds10 _ b hb (by rw [hone10])

/-- Witness for C3: ball 3 seen at frame 1, then absent for frames 2–10
(9 frames), confirmed on frame 11. -/
theorem pot_confirmation_threshold_exact_witness :
    (((BallTracker.update 11 []
        (runCollect ((List.range' 2 9).map fun i => (i, ([] : List Nat)))
          (BallTracker.update 1 [3] BallTracker.init).2).2).2.ballStates 3).state =
      BallState.potted) := by
  refine (pot_confirmation_threshold_exact
    (BallTracker.update 1 [3] BallTracker.init).2 3 (by decide) 1 (by decide)
    (by decide) ((List.range' 2 9).map fun i => (i, ([] : List Nat)))
    (by decide) (by decide) 11 [] (by decide)).2.2.2.1

/-!  Referee state-machine lemmas.  -/

theorem is_on_table_iff (t : BallTracker) (n : Nat) :
    t.is_on_table n = true ↔ (t.ballStates n).state = BallState.onTable := by
  simp [BallTracker.is_on_table]

/-- Appending an element and then erasing its first occurrence leaves the
occurrence count unchanged (Python `list.append` then `list.remove`). -/
theorem count_erase_append_self (l : List Int) (a : Int) :
    ((l ++ [a]).erase a).count a = l.count a := by
  rw [List.count_erase_self, List.count_append]
  simp

theorem update_lowest_ball_state (g : GameManager) :
    g.update_lowest_ball.state = g.state := by
  unfold GameManager.update_lowest_ball
  split <;> rfl

theorem update_lowest_ball_balls (g : GameManager) :
    g.update_lowest_ball.balls_on_table = g.balls_on_table := by
  unfold GameManager.update_lowest_ball
  split <;> rfl

theorem update_lowest_ball_player0 (g : GameManager) :
    g.update_lowest_ball.player0 = g.player0 := by
  unfold GameManager.update_lowest_ball
  split <;> rfl

theorem update_lowest_ball_player1 (g : GameManager) :
    g.update_lowest_ball.player1 = g.player1 := by
  unfold GameManager.update_lowest_ball
  split <;> rfl

theorem update_lowest_ball_idx (g : GameManager) :
    g.update_lowest_ball.current_player_idx = g.current_player_idx := by
  unfold GameManager.update_lowest_ball
  split <;> rfl

theorem update_lowest_ball_events (g : GameManager) :
    g.update_lowest_ball.events = g.events := by
  unfold GameManager.update_lowest_ball
  split <;> rfl

/-- C9: `_update_lowest_ball` sets the lowest ball to the minimum numbered
ball whose tracker state is exactly ON_TABLE; when no ball qualifies the whole
state (in particular the previous lowest-ball value) is left unchanged. -/
theorem update_lowest_ball_spec (g : GameManager) :
    ((∃ b ∈ ballRange,
        (g.ball_tracker.ballStates b).state = BallState.onTable) →
      ∃ m : Nat, g.update_lowest_ball.lowest_ball = (m : Int) ∧
        m ∈ ballRange ∧
        (g.ball_tracker.ballStates m).state = BallState.onTable ∧
        ∀ x ∈ ballRange,
          (g.ball_tracker.ballStates x).state = BallState.onTable → m ≤ x) ∧
    ((∀ b ∈ ballRange,
        (g.ball_tracker.ballStates b).state ≠ BallState.onTable) →
      g.update_lowest_ball = g) := by
  constructor
  · rintro ⟨b, hb, hbt⟩
    cases hmin : (ballRange.filter fun n => g.ball_tracker.is_on_table n).min? with
    | none =>
        exfalso
        have hnil : (ballRange.filter fun n => g.ball_tracker.is_on_table n) = [] := by
          simpa using List.min?_eq_none_iff.mp hmin
        have : b ∈ ballRange.filter fun n => g.ball_tracker.is_on_table n :=
          List.mem_filter.mpr ⟨hb, (is_on_table_iff _ _).mpr hbt⟩
        rw [hnil] at this
        exact absurd this (List.not_mem_nil b)
    | some m =>
        have hm := (List.min?_eq_some_iff Nat.le_refl (fun a b => min_choice a b)
          (fun a b c => le_min_iff)).mp hmin
        have hmem := List.mem_filter.mp hm.1
        refine ⟨m, ?_, hmem.1, (is_on_table_iff _ _).mp hmem.2, ?_⟩
        · simp [GameManager.update_lowest_ball, hmin]
        · intro x hx hxt
          exact hm.2 x (List.mem_filter.mpr ⟨hx, (is_on_table_iff _ _).mpr hxt⟩)
  · intro hnone
    have hnil : (ballRange.filter fun n => g.ball_tracker.is_on_table n) = [] := by
      rw [List.filter_eq_nil_iff]
      intro b hb
      simp only [is_on_table_iff]
      exact hnone b hb
    simp [GameManager.update_lowest_ball, hnil]

/-- Witness for C9 on the initial state: all balls qualify, and the computed
lowest ball is a qualifying lower bound. -/
theorem update_lowest_ball_spec_witness :
    ∃ m : Nat, GameManager.init.update_lowest_ball.lowest_ball = (m : Int) ∧
      m ∈ ballRange ∧
      (GameManager.init.ball_tracker.ballStates m).state = BallState.onTable ∧
      ∀ x ∈ ballRange,
        (GameManager.init.ball_tracker.ballStates x).state = BallState.onTable →
          m ≤ x :=
  (update_lowest_ball_spec GameManager.init).1 ⟨1, by decide, by decide⟩

/-- C5: the first collision of a turn is always valid during the break-grace
window; outside it, it is valid exactly when the struck ball is the lowest
remaining ball, an invalid first hit only attaches a foul reason, and in no
case is a foul applied (both foul counters are untouched). -/
theorem first_hit_validity (g : GameManager) (ball_name : String) (num : Int)
    (hparse : parseBallNum ball_name = some num)
    (hfirst : g.last_hit_ball = none) :
    (g.is_in_break_grace_period = true →
      (g.process_collision ball_name).1 =
        CollisionEvent.firstHit num true g.lowest_ball true none) ∧
    (g.is_in_break_grace_period = false → num = g.lowest_ball →
      (g.process_collision ball_name).1 =
        CollisionEvent.firstHit num true g.lowest_ball false none) ∧
    (g.is_in_break_grace_period = false → num ≠ g.lowest_ball →
      (g.process_collision ball_name).1 =
        CollisionEvent.firstHit num false g.lowest_ball false
          (some ("Must hit bi" ++ toString g.lowest_ball ++ " first"))) ∧
    (g.process_collision ball_name).2.player0.foul_count = g.player0.foul_count ∧
    (g.process_collision ball_name).2.player1.foul_count = g.player1.foul_count := by
  have hred : (g.process_collision ball_name).1 =
      CollisionEvent.firstHit num
        (if g.is_in_break_grace_period then true
         else decide (num = g.lowest_ball))
        g.lowest_ball g.is_in_break_grace_period
        (if (if g.is_in_break_grace_period then true
             else decide (num = g.lowest_ball)) = true then none
         else some ("Must hit bi" ++ toString g.lowest_ball ++ " first")) := by
    unfold GameManager.process_collision
    rw [hparse, hfirst]
    rfl
  have hstate : (g.process_collision ball_name).2.player0 = g.player0 ∧
      (g.process_collision ball_name).2.player1 = g.player1 := by
    unfold GameManager.process_collision
    rw [hparse, hfirst]
    exact ⟨rfl, rfl⟩
  refine ⟨?_, ?_, ?_, by rw [hstate.1], by rw [hstate.2]⟩
  · intro hgr
    rw [hred, hgr]
    simp
  · intro hgr hnum
    rw [hred, hgr, hnum]
    simp
  · intro hgr hnum
    rw [hred, hgr]
    simp [hnum]

/-- Witness for C5: a fresh game (grace window) with a first hit on ball 3. -/
theorem first_hit_validity_witness :
    ((GameManager.init.start_game "A" "B" 0).process_collision "bi3").1 =
      CollisionEvent.firstHit 3 true 1 true none :=
  (first_hit_validity (GameManager.init.start_game "A" "B" 0) "bi3" 3
    (by decide) (by decide)).1 (by decide)

/-- C8: a malformed ball identifier makes `process_collision` return a
distinct invalid-collision event and `process_potted_ball` a distinct
invalid-pot event, both leaving the whole match state unchanged. -/
theorem malformed_ball_id_no_mutation (g : GameManager) (s : String)
    (h : parseBallNum s = none) :
    g.process_collision s = (CollisionEvent.invalidCollision s, g) ∧
    g.process_potted_ball s = (PotEvent.invalidPot s, g) := by
  unfold GameManager.process_collision GameManager.process_potted_ball
  rw [h]
  exact ⟨rfl, rfl⟩

/-- Witness for C8 on a started game and the identifier `"biX"`. -/
theorem malformed_ball_id_no_mutation_witness :
    (GameManager.init.start_game "A" "B" 0).process_collision "biX" =
      (CollisionEvent.invalidCollision "biX",
        GameManager.init.start_game "A" "B" 0) :=
  (malformed_ball_id_no_mutation (GameManager.init.start_game "A" "B" 0) "biX"
    (by decide)).1

/-- Counterexample to C1: in a Playing game with a snapshot taken whose
balls-on-table is `{1, ..., 9}` and whose potted lists are empty,
`process_foul` does *not* restore the snapshot: ball 1 stays off the table and
stays on player A's potted list (the code keeps potted balls on fouls). -/
theorem process_foul_no_restore_counterexample :
    c1_g2.state = GameState.playing ∧
    c1_g2.state_snapshots ≠ [] ∧
    (c1_g2.current_snapshot.map fun s => s.balls_on_table) = some initialBalls ∧
    (c1_g2.current_snapshot.map fun s => s.player1_potted) = some [] ∧
    c1_g3.balls_on_table ≠ initialBalls ∧
    c1_g3.player0.potted_balls ≠ [] := by
  refine ⟨rfl, by decide, rfl, rfl, by decide, by decide⟩

/-- C1 (amended): `process_foul` increments the current player's foul counter
exactly once and switches the active player, but performs no snapshot
reversion: balls-on-table, the lowest ball and both potted lists keep their
post-turn values (potted balls stay potted), while the per-turn fields
(last-hit ball, potted-this-turn list, contact flag) are cleared and a new
snapshot is pushed for the incoming turn. -/
theorem process_foul_increments_and_switches (g : GameManager) (reason : String)
    (hst : g.state = GameState.playing)
    (hsnap : g.state_snapshots ≠ [])
    (hidx : g.current_player_idx ≤ 1) :
    (g.current_player_idx = 0 →
      (g.process_foul reason).2.player0.foul_count = g.player0.foul_count + 1 ∧
      (g.process_foul reason).2.player1.foul_count = g.player1.foul_count) ∧
    (g.current_player_idx = 1 →
      (g.process_foul reason).2.player1.foul_count = g.player1.foul_count + 1 ∧
      (g.process_foul reason).2.player0.foul_count = g.player0.foul_count) ∧
    (g.process_foul reason).2.current_player_idx = 1 - g.current_player_idx ∧
    (g.process_foul reason).2.balls_on_table = g.balls_on_table ∧
    (g.process_foul reason).2.lowest_ball = g.lowest_ball ∧
    (g.process_foul reason).2.player0.potted_balls = g.player0.potted_balls ∧
    (g.process_foul reason).2.player1.potted_balls = g.player1.potted_balls ∧
    (g.process_foul reason).2.last_hit_ball = none ∧
    (g.process_foul reason).2.last_potted_balls = [] ∧
    (g.process_foul reason).2.first_contact = false ∧
    (g.process_foul reason).2.state_snapshots.length =
      (if g.state_snapshots.length + 1 > max_snapshots then
        g.state_snapshots.length else g.state_snapshots.length + 1) := by
  rcases Nat.le_one_iff_eq_zero_or_eq_one.mp hidx with h0 | h1
  · simp [GameManager.process_foul, GameManager.switch_turn,
      GameManager.reset_turn_state, GameManager.create_turn_snapshot,
      GameManager.modifyCurrentPlayer, GameManager.currentPlayer,
      GameManager.add_event, h0, max_snapshots]
    by_cases h5 : 5 < g.state_snapshots.length + 1 <;>
      simp [h5, List.length_append, List.length_tail]
  · simp [GameManager.process_foul, GameManager.switch_turn,
      GameManager.reset_turn_state, GameManager.create_turn_snapshot,
      GameManager.modifyCurrentPlayer, GameManager.currentPlayer,
      GameManager.add_event, h1, max_snapshots]
    by_cases h5 : 5 < g.state_snapshots.length + 1 <;>
      simp [h5, List.length_append, List.length_tail]

/-- Witness for C1 (amended) on the concrete game above. -/
theorem process_foul_increments_and_switches_witness :
    c1_g3.player0.foul_count = c1_g2.player0.foul_count + 1 ∧
    c1_g3.current_player_idx = 1 - c1_g2.current_player_idx ∧
    c1_g3.balls_on_table = c1_g2.balls_on_table := by
  have h := process_foul_increments_and_switches c1_g2 "test foul"
    (by decide) (by decide) (by decide)
  exact ⟨(h.1 (by decide)).1, h.2.2.1, h.2.2.2.1⟩

/-- Counterexample to C2: contact was made and ball 9 *was* the first ball
contacted this turn, yet the pot neither ends the game (the first hit was not
the lowest ball, so the win check never runs) nor returns ball 9 to the table
— it stays off the table and on player A's potted list. -/
theorem nine_ball_pot_counterexample :
    c2_g2.state = GameState.playing ∧
    c2_g2.first_contact = true ∧
    c2_g2.last_hit_ball = some 9 ∧
    (9 : Int) ∈ c2_g2.balls_on_table ∧
    c2_pot.2.state ≠ GameState.ended ∧
    (9 : Int) ∉ c2_pot.2.balls_on_table ∧
    c2_pot.2.player0.potted_balls = [9] := by
  refine ⟨rfl, rfl, rfl, by decide, by decide, by decide, by decide⟩

/-- C2 (amended): with contact made and ball 9 on the table, potting ball 9
ends the game with the current player as winner iff the first hit of the turn
was the lowest ball *and* (ball 9 was the last remaining ball or ball 9 was
the first ball contacted); with a valid first hit but neither win condition,
ball 9 is returned to the table and taken off the potted list (an early/
combination pot); with an invalid first hit, ball 9 stays off the table and on
the potted list, the event only carries a foul reason, and the game does not
end. -/
theorem nine_ball_pot_rules (g : GameManager)
    (hcontact : g.first_contact = true)
    (hmem : (9 : Int) ∈ g.balls_on_table) :
    (g.last_hit_ball = some g.lowest_ball →
      ((g.balls_on_table.erase 9 = ∅ ∨ g.last_hit_ball = some (9 : Int)) →
        (g.process_potted_ball "bi9").2.state = GameState.ended ∧
        (9 : Int) ∉ (g.process_potted_ball "bi9").2.balls_on_table ∧
        (g.process_potted_ball "bi9").1 =
          PotEvent.potted 9 true true false none (some g.currentPlayer.name)) ∧
      (¬(g.balls_on_table.erase 9 = ∅ ∨ g.last_hit_ball = some (9 : Int)) →
        (g.process_potted_ball "bi9").2.state = g.state ∧
        (9 : Int) ∈ (g.process_potted_ball "bi9").2.balls_on_table ∧
        (g.process_potted_ball "bi9").2.currentPlayer.potted_balls.count 9 =
          g.currentPlayer.potted_balls.count 9 ∧
        (g.process_potted_ball "bi9").1 =
          PotEvent.potted 9 false false true
            (some "bi9 potted by combination") none)) ∧
    (g.last_hit_ball ≠ some g.lowest_ball →
      (g.process_potted_ball "bi9").2.state = g.state ∧
      (9 : Int) ∉ (g.process_potted_ball "bi9").2.balls_on_table ∧
      (g.process_potted_ball "bi9").2.currentPlayer.potted_balls.count 9 =
        g.currentPlayer.potted_balls.count 9 + 1 ∧
      (g.process_potted_ball "bi9").1 =
        PotEvent.potted 9 false false false
          (some ("Did not hit bi" ++ toString g.lowest_ball ++ " first"))
          none) := by
  have hp : parseBallNum "bi9" = some (9 : Int) := by decide
  refine ⟨fun hv => ⟨fun hw => ?_, fun hw => ?_⟩, fun hv => ?_⟩ <;>
    unfold GameManager.process_potted_ball
  · have hwin : g.balls_on_table.erase 9 = ∅ ∨ g.lowest_ball = (9 : Int) := by
      rcases hw with h | h
      · exact Or.inl h
      · exact Or.inr (Option.some.inj (hv.symm.trans h))
    by_cases hi : g.current_player_idx = 0 <;>
      simp [hp, hmem, hcontact, hv, hi, hwin, GameManager.end_game,
        GameManager.add_event, GameManager.currentPlayer,
        GameManager.modifyCurrentPlayer, Finset.not_mem_erase]
  · have hwin : ¬(g.balls_on_table.erase 9 = ∅ ∨ g.lowest_ball = (9 : Int)) := by
      intro hcon
      apply hw
      rcases hcon with h | h
      · exact Or.inl h
      · exact Or.inr (h ▸ hv)
    by_cases hi : g.current_player_idx = 0 <;>
      simp [hp, hmem, hcontact, hv, hi, hwin, update_lowest_ball_state,
        update_lowest_ball_balls, update_lowest_ball_player0,
        update_lowest_ball_player1, update_lowest_ball_idx,
        update_lowest_ball_events, GameManager.add_event,
        GameManager.currentPlayer, GameManager.modifyCurrentPlayer,
        Finset.mem_insert, count_erase_append_self]
  · by_cases hi : g.current_player_idx = 0 <;>
      simp [hp, hmem, hcontact, hv, hi, GameManager.add_event,
        GameManager.currentPlayer, GameManager.modifyCurrentPlayer,
        Finset.not_mem_erase, List.count_append]

/-- Witness for C2 (amended), invalid-first-hit branch, on the concrete game
above. -/
theorem nine_ball_pot_rules_witness :
    c2_pot.2.state = c2_g2.state ∧
    (9 : Int) ∉ c2_pot.2.balls_on_table ∧
    c2_pot.2.currentPlayer.potted_balls.count 9 =
      c2_g2.currentPlayer.potted_balls.count 9 + 1 ∧
    c2_pot.1 = PotEvent.potted 9 false false false
      (some ("Did not hit bi" ++ toString c2_g2.lowest_ball ++ " first"))
      none := by
  have h := nine_ball_pot_rules c2_g2 (by decide) (by decide)
  exact h.2 (by decide)

/-!  C4: lemmas about `merge_sequential_collisions`.  -/

theorem mergeLoop_sublist (mg : Int) :
    ∀ (rest : List Collision) (head prev : Collision),
      (mergeLoop mg head prev rest).Sublist (head :: rest) := by
  intro rest
  induction rest with
  | nil =>
      intro head prev
      simp [mergeLoop]
  | cons c rest ih =>
      intro head prev
      unfold mergeLoop
      split
      · exact (ih head c).trans
          (List.Sublist.cons₂ head (List.sublist_cons_self c rest))
      · exact List.Sublist.cons₂ head (ih c c)

theorem mergeLoop_head (mg : Int) :
    ∀ (rest : List Collision) (head prev : Collision),
      ∃ tl, mergeLoop mg head prev rest = head :: tl := by
  intro rest
  induction rest with
  | nil =>
      intro head prev
      exact ⟨[], rfl⟩
  | cons c rest ih =>
      intro head prev
      unfold mergeLoop
      split
      · exact ih head c
      · exact ⟨mergeLoop mg c c rest, rfl⟩

theorem dedupKeyed_key_not_seen :
    ∀ (l : List Collision) (seen : List (Nat × String)),
      ∀ c ∈ dedupKeyed l seen, c.key ∉ seen := by
  intro l
  induction l with
  | nil =>
      intro seen c hc
      cases hc
  | cons a l ih =>
      intro seen c hc
      unfold dedupKeyed at hc
      split at hc
      · exact ih seen c hc
      · rcases List.mem_cons.mp hc with rfl | hc
        · assumption
        · intro hmem
          exact ih _ c hc (List.mem_cons_of_mem _ hmem)

theorem dedupKeyed_pairwise :
    ∀ (l : List Collision) (seen : List (Nat × String)),
      (dedupKeyed l seen).Pairwise fun a b => a.key ≠ b.key := by
  intro l
  induction l with
  | nil =>
      intro seen
      exact List.Pairwise.nil
  | cons a l ih =>
      intro seen
      unfold dedupKeyed
      split
      · exact ih seen
      · refine List.pairwise_cons.mpr ⟨?_, ih _⟩
        intro b hb heq
        exact dedupKeyed_key_not_seen l (a.key :: seen) b hb
          (heq ▸ List.mem_cons_self a.key seen)

theorem dedupKeyed_subset :
    ∀ (l : List Collision) (seen : List (Nat × String)),
      ∀ c ∈ dedupKeyed l seen, c ∈ l := by
  intro l
  induction l with
  | nil =>
      intro seen c hc
      cases hc
  | cons a l ih =>
      intro seen c hc
      unfold dedupKeyed at hc
      split at hc
      · exact List.mem_cons_of_mem _ (ih seen c hc)
      · rcases List.mem_cons.mp hc with rfl | hc
        · exact List.mem_cons_self _ _
        · exact List.mem_cons_of_mem _ (ih _ c hc)

theorem dedupKeyed_covers :
    ∀ (l : List Collision) (seen : List (Nat × String)), ∀ c ∈ l,
      c.key ∈ seen ∨ ∃ d ∈ dedupKeyed l seen, d.key = c.key := by
  intro l
  induction l with
  | nil =>
      intro seen c hc
      cases hc
  | cons a l ih =>
      intro seen c hc
      rcases List.mem_cons.mp hc with rfl | hc
      · unfold dedupKeyed
        split
        · exact Or.inl (by assumption)
        · exact Or.inr ⟨c, List.mem_cons_self _ _, rfl⟩
      · unfold dedupKeyed
        split
        · exact ih seen c hc
        · rcases ih (a.key :: seen) c hc with hmem | ⟨d, hd, hdk⟩
          · rcases List.mem_cons.mp hmem with heq | hmem
            · exact Or.inr ⟨a, List.mem_cons_self _ _, heq.symm⟩
            · exact Or.inl hmem
          · exact Or.inr ⟨d, List.mem_cons_of_mem _ hd, hdk⟩

theorem merge_pairwise_keys (mg : Int) (collisions : List Collision) :
    (merge_sequential_collisions mg collisions).Pairwise
      fun a b => a.key ≠ b.key := by
  unfold merge_sequential_collisions
  have hsorted_pw : (List.insertionSort collLE (dedupKeyed collisions [])).Pairwise
      fun a b => a.key ≠ b.key :=
    (List.Perm.pairwise_iff (fun h h2 => h h2.symm)
      (List.perm_insertionSort collLE (dedupKeyed collisions []))).mpr
      (dedupKeyed_pairwise collisions [])
  cases hs : List.insertionSort collLE (dedupKeyed collisions []) with
  | nil => exact List.Pairwise.nil
  | cons c rest =>
      rw [hs] at hsorted_pw
      exact List.Pairwise.sublist (mergeLoop_sublist mg rest c c) hsorted_pw

theorem mergeLoop_single_ball (ball0 : String) :
    ∀ (rest : List Collision) (head prev : Collision),
      head.ball = ball0 → prev.ball = ball0 → (∀ c ∈ rest, c.ball = ball0) →
      (prev :: rest).Pairwise (fun a b => a.frame_idx < b.frame_idx) →
      head.frame_idx ≤ prev.frame_idx →
      (mergeLoop 2 head prev rest).Pairwise
        (fun a b => a.frame_idx + 2 < b.frame_idx) ∧
      ∀ y ∈ mergeLoop 2 head prev rest,
        y = head ∨ prev.frame_idx + 2 < y.frame_idx := by
  intro rest
  induction rest with
  | nil =>
      intro head prev _ _ _ _ _
      constructor
      · simp [mergeLoop]
      · intro y hy
        simp [mergeLoop] at hy
        exact Or.inl hy
  | cons c rest ih =>
      intro head prev hhb hpb hrb hpw hle
      have hcb : c.ball = ball0 := hrb c (List.mem_cons_self _ _)
      have hpc : prev.frame_idx < c.frame_idx :=
        (List.pairwise_cons.mp hpw).1 c (List.mem_cons_self _ _)
      have hpw' : (c :: rest).Pairwise (fun a b => a.frame_idx < b.frame_idx) :=
        (List.pairwise_cons.mp hpw).2
      unfold mergeLoop
      split
      · have hres := ih head c hhb hcb
          (fun d hd => hrb d (List.mem_cons_of_mem _ hd)) hpw'
          (le_of_lt (lt_of_le_of_lt hle hpc))
        refine ⟨hres.1, ?_⟩
        intro y hy
        rcases hres.2 y hy with h | h
        · exact Or.inl h
        · exact Or.inr (by omega)
      · rename_i hcond
        have hsame : c.ball = prev.ball := by rw [hcb, hpb]
        have hgap : ¬((c.frame_idx : Int) - (prev.frame_idx : Int) ≤ 2) :=
          fun h2 => hcond ⟨hsame, h2⟩
        have hgapN : prev.frame_idx + 2 < c.frame_idx := by omega
        have hres := ih c c hcb hcb
          (fun d hd => hrb d (List.mem_cons_of_mem _ hd)) hpw' (le_refl _)
        constructor
        · refine List.pairwise_cons.mpr ⟨?_, hres.1⟩
          intro y hy
          rcases hres.2 y hy with rfl | h
          · omega
          · omega
        · intro y hy
          rcases List.mem_cons.mp hy with rfl | hy
          · exact Or.inl rfl
          · rcases hres.2 y hy with rfl | h
            · exact Or.inr hgapN
            · exact Or.inr (by omega)

/-- `collLE` bounds frame indices. -/
theorem collLE_frame_le {a b : Collision} (h : collLE a b) :
    a.frame_idx ≤ b.frame_idx := by
  rcases h with h | ⟨h, _⟩
  · exact le_of_lt h
  · exact le_of_eq h

theorem merge_single_ball (ball0 : String) (collisions : List Collision)
    (hall : ∀ c ∈ collisions, c.ball = ball0) :
    (merge_sequential_collisions 2 collisions).Pairwise
      (fun a b => a.frame_idx + 2 < b.frame_idx) ∧
    ∀ c ∈ collisions, ∃ o ∈ merge_sequential_collisions 2 collisions,
      o.frame_idx ≤ c.frame_idx := by
  have hperm := List.perm_insertionSort collLE (dedupKeyed collisions [])
  have hallsorted : ∀ c ∈ List.insertionSort collLE (dedupKeyed collisions []),
      c.ball = ball0 := fun c hc =>
    hall c (dedupKeyed_subset collisions [] c (hperm.mem_iff.mp hc))
  have hkeys : (List.insertionSort collLE (dedupKeyed collisions [])).Pairwise
      fun a b => a.key ≠ b.key :=
    (List.Perm.pairwise_iff (fun h h2 => h h2.symm) hperm).mpr
      (dedupKeyed_pairwise collisions [])
  have hsorted := List.sorted_insertionSort collLE (dedupKeyed collisions [])
  have hframes : (List.insertionSort collLE (dedupKeyed collisions [])).Pairwise
      fun a b => a.frame_idx < b.frame_idx := by
    have hand := hsorted.and hkeys
    refine List.Pairwise.imp_of_mem ?_ hand
    intro a b ha hb hab
    rcases hab.1 with h | ⟨hf, _⟩
    · exact h
    · exfalso
      apply hab.2
      have : a.ball = b.ball := by rw [hallsorted a ha, hallsorted b hb]
      unfold Collision.key
      rw [hf, this]
  unfold merge_sequential_collisions
  cases hs : List.insertionSort collLE (dedupKeyed collisions []) with
  | nil =>
      refine ⟨List.Pairwise.nil, ?_⟩
      intro c hc
      rcases dedupKeyed_covers collisions [] c hc with hmem | ⟨d, hd, _⟩
      · cases hmem
      · have : d ∈ List.insertionSort collLE (dedupKeyed collisions []) :=
          hperm.mem_iff.mpr hd
        rw [hs] at this
        cases this
  | cons c0 rest =>
      rw [hs] at hallsorted hframes hsorted
      have hsingle := mergeLoop_single_ball ball0 rest c0 c0
        (hallsorted c0 (List.mem_cons_self _ _))
        (hallsorted c0 (List.mem_cons_self _ _))
        (fun d hd => hallsorted d (List.mem_cons_of_mem _ hd))
        hframes (le_refl _)
      refine ⟨hsingle.1, ?_⟩
      intro c hc
      refine ⟨c0, ?_, ?_⟩
      · obtain ⟨tl, htl⟩ := mergeLoop_head 2 rest c0 c0
        show c0 ∈ mergeLoop 2 c0 c0 rest
        rw [htl]
        exact List.mem_cons_self _ _
      · rcases dedupKeyed_covers collisions [] c hc with hmem | ⟨d, hd, hdk⟩
        · cases hmem
        · have hdmem : d ∈ c0 :: rest := by
            rw [← hs]
            exact hperm.mem_iff.mpr hd
          have hfd : d.frame_idx = c.frame_idx := congrArg Prod.fst hdk
          rcases List.mem_cons.mp hdmem with rfl | hdmem
          · omega
          · have := collLE_frame_le ((List.pairwise_cons.mp hsorted).1 d hdmem)
            omega

/-- Counterexample to C4: with an event of another ball sorted between them,
two events for the same ball only 2 frames apart both survive the merge: the
`(3, "bi2")` event is not merged into the `(1, "bi2")` one because `(2, "bi5")`
breaks the consecutive run in the `(frame, name)`-sorted order. -/
theorem merge_collisions_counterexample :
    merge_sequential_collisions 2 [⟨1, "bi2"⟩, ⟨2, "bi5"⟩, ⟨3, "bi2"⟩] =
      [⟨1, "bi2"⟩, ⟨2, "bi5"⟩, ⟨3, "bi2"⟩] ∧
    (⟨1, "bi2"⟩ : Collision) ∈
      merge_sequential_collisions 2 [⟨1, "bi2"⟩, ⟨2, "bi5"⟩, ⟨3, "bi2"⟩] ∧
    (⟨3, "bi2"⟩ : Collision) ∈
      merge_sequential_collisions 2 [⟨1, "bi2"⟩, ⟨2, "bi5"⟩, ⟨3, "bi2"⟩] ∧
    (3 : Nat) - 1 ≤ 2 := by
  decide

/-- C4 (amended): the output of `merge_sequential_collisions` (gap 2) never
contains two events with the same `(frame, ball)` key; when all raw events
reference a single ball, no two output events are within 2 frames of each
other and every raw event is covered by an output event at an earlier-or-equal
frame (each merged run keeps its earliest record); in particular 5 consecutive
contact frames for one ball collapse to exactly the earliest event.  (Events of
*different* balls sorted between two same-ball events can still split a run —
see the counterexample.) -/
theorem merge_collisions_spec :
    (∀ collisions : List Collision,
      (merge_sequential_collisions 2 collisions).Pairwise
        fun a b => a.key ≠ b.key) ∧
    (∀ (ball0 : String) (collisions : List Collision),
      (∀ c ∈ collisions, c.ball = ball0) →
      (merge_sequential_collisions 2 collisions).Pairwise
        (fun a b => a.frame_idx + 2 < b.frame_idx) ∧
      ∀ c ∈ collisions, ∃ o ∈ merge_sequential_collisions 2 collisions,
        o.frame_idx ≤ c.frame_idx) ∧
    merge_sequential_collisions 2
      [⟨5, "bi3"⟩, ⟨6, "bi3"⟩, ⟨7, "bi3"⟩, ⟨8, "bi3"⟩, ⟨9, "bi3"⟩] =
      [⟨5, "bi3"⟩] :=
  ⟨fun collisions => merge_pairwise_keys 2 collisions,
   fun ball0 collisions hall => merge_single_ball ball0 collisions hall,
   by decide⟩

/-- Witness for C4 (amended) on a concrete single-ball event list. -/
theorem merge_collisions_spec_witness :
    (merge_sequential_collisions 2
        [⟨1, "bi3"⟩, ⟨2, "bi3"⟩, ⟨9, "bi3"⟩]).Pairwise
      (fun a b => a.frame_idx + 2 < b.frame_idx) :=
  (merge_collisions_spec.2.1 "bi3" [⟨1, "bi3"⟩, ⟨2, "bi3"⟩, ⟨9, "bi3"⟩]
    (by decide)).1

end Billiards
